import Mathlib

/-!
Verification development for the article-analysis pipeline in src/app.py.

The program fetches a batch of web pages, locates the main content region of
each page (extract_body), extracts paragraph text and a word count
(get_paragraph_texts), counts headings (count_sections), resolves an author
(find_author), collects filtered outbound links (extract_links), computes a
tf-idf cosine relevancy (compute_relevancy), and aggregates the per-document
records into a pandas DataFrame with batch-normalized metrics and a weighted
overall score (main).

The embedding below models:
  - Python float arithmetic restricted to the values reachable here, as the
    symbolic type PFloat (exact rationals plus nan and signed infinity);
  - parsed HTML as a tree type Node, with the BeautifulSoup operations the
    source uses (find, find_all, find_parent, get_text, .string, attributes);
  - the json stdlib loads function as a recursive-descent parser;
  - the pandas operations used by main: DataFrame column inference,
    dropna with a subset (which raises KeyError when a subset column is
    absent from the frame), column-wise division by the column max, and
    a left merge on the URL column;
  - the sklearn TfidfVectorizer/cosine_similarity combination as an exact
    symbolic value (structure Rel below).

Machine floats are modelled exactly: every numeric value reachable in the
claims (0, 50/100, 1, 0/0) is either exactly representable in IEEE double
or is nan, so rational arithmetic plus an explicit nan is faithful.
-/

set_option maxRecDepth 8000

namespace PageAnalysis

/-- Python float values reachable in this program: exact rationals, nan
(from 0.0/0.0 in the normalization step), and signed infinities (for
totality of division; not reachable from the pipeline inputs used here). -/
inductive PFloat where
  | num (q : ℚ)
  | nan
  | inf
  | ninf
deriving DecidableEq, Repr

/-- IEEE division on PFloat. 0/0 is nan, x/0 is a signed infinity. -/
def PFloat.div : PFloat → PFloat → PFloat
  | .nan, _ => .nan
  | _, .nan => .nan
  | .num a, .num b =>
      if b = 0 then (if a = 0 then .nan else if a > 0 then .inf else .ninf)
      else .num (a / b)
  | .num _, .inf => .num 0
  | .num _, .ninf => .num 0
  | .inf, .num b => if b < 0 then .ninf else .inf
  | .ninf, .num b => if b < 0 then .inf else .ninf
  | .inf, .inf => .nan
  | .inf, .ninf => .nan
  | .ninf, .inf => .nan
  | .ninf, .ninf => .nan

/-- IEEE multiplication on PFloat. nan propagates; inf times 0 is nan. -/
def PFloat.mul : PFloat → PFloat → PFloat
  | .nan, _ => .nan
  | _, .nan => .nan
  | .num a, .num b => .num (a * b)
  | .num a, .inf => if a = 0 then .nan else if a > 0 then .inf else .ninf
  | .num a, .ninf => if a = 0 then .nan else if a > 0 then .ninf else .inf
  | .inf, .num b => if b = 0 then .nan else if b > 0 then .inf else .ninf
  | .ninf, .num b => if b = 0 then .nan else if b > 0 then .ninf else .inf
  | .inf, .inf => .inf
  | .inf, .ninf => .ninf
  | .ninf, .inf => .ninf
  | .ninf, .ninf => .inf

/-- IEEE addition on PFloat. nan propagates; inf plus ninf is nan. -/
def PFloat.add : PFloat → PFloat → PFloat
  | .nan, _ => .nan
  | _, .nan => .nan
  | .num a, .num b => .num (a + b)
  | .num _, .inf => .inf
  | .num _, .ninf => .ninf
  | .inf, .num _ => .inf
  | .ninf, .num _ => .ninf
  | .inf, .inf => .inf
  | .inf, .ninf => .nan
  | .ninf, .inf => .nan
  | .ninf, .ninf => .ninf

/-! ### String helpers (Python semantics, implemented over character lists) -/

/-- Python str.strip with no argument: drop leading and trailing whitespace. -/
def pyStripL (cs : List Char) : List Char :=
  ((cs.dropWhile Char.isWhitespace).reverse.dropWhile Char.isWhitespace).reverse

/-- Python str.strip on String values. -/
def pyStrip (s : String) : String := ⟨pyStripL s.data⟩

/-- Python str.split with no argument: split on runs of whitespace,
dropping empty pieces. -/
def pySplitWs (s : String) : List String :=
  ((s.data.splitOnP Char.isWhitespace).map (fun cs => (⟨cs⟩ : String))).filter (· ≠ "")

/-- Number of whitespace-delimited tokens, Python len(s.split()). -/
def pyWordCount (s : String) : ℕ := (pySplitWs s).length

/-- Python str.lower (ASCII case folding suffices for the inputs used). -/
def pyLower (s : String) : String := ⟨s.data.map Char.toLower⟩

/-- Python str.replace over character lists: replace every leftmost
non-overlapping occurrence of the (non-empty) pattern. Structural
recursion on a fuel bound; each step consumes at least one character, so
fuel equal to the input length never runs out. -/
def replaceAux (rep pat : List Char) : ℕ → List Char → List Char
  | 0, s => s
  | _ + 1, [] => []
  | n + 1, c :: rest =>
      if pat.isPrefixOf (c :: rest) then
        rep ++ replaceAux rep pat n ((c :: rest).drop pat.length)
      else
        c :: replaceAux rep pat n rest

/-- Python str.replace(old, new): replaces every occurrence of old
(the source calls it with old = "www."). An empty pattern is returned
unchanged (Python would interleave the replacement; that case is
unreachable from the call site). -/
def pyReplace (s old new : String) : String :=
  if old = "" then s else ⟨replaceAux new.data old.data s.data.length s.data⟩

/-- Characters allowed in a URL scheme after the initial letter. -/
def schemeChar (c : Char) : Bool := c.isAlphanum || c = '+' || c = '-' || c = '.'

/-- Drop a leading "scheme:" from a URL, as urllib.parse.urlsplit does:
the text before the first colon must be non-empty, start with a letter and
consist of scheme characters. -/
def stripScheme (cs : List Char) : List Char :=
  let pre := cs.takeWhile schemeChar
  let rest := cs.drop pre.length
  match rest with
  | ':' :: r =>
      match pre with
      | [] => cs
      | p :: _ => if p.isAlpha then r else cs
  | _ => cs

/-- The netloc (host) component of a URL, as urllib.parse.urlparse computes
it: after removing the scheme, a netloc is present only when the remainder
starts with two slashes, and extends to the next slash, question mark or
hash; otherwise the netloc is empty. -/
def urlNetloc (url : String) : String :=
  match stripScheme url.data with
  | '/' :: '/' :: r => ⟨r.takeWhile (fun c => c ≠ '/' && c ≠ '?' && c ≠ '#')⟩
  | _ => ""

/-- The domain stored in every record (src/app.py line 142):
parsed.netloc.replace("www.", ""). -/
def recordDomain (url : String) : String := pyReplace (urlNetloc url) "www." ""

/-- Written from the spec, for comparison with recordDomain: the host with
only a leading "www." prefix stripped (spec section 4.7: Domain = the URL
host component with a leading "www." prefix stripped). -/
def specLeadingWwwStripped (host : String) : String :=
  if "www.".data.isPrefixOf host.data then ⟨host.data.drop 4⟩ else host

/-- Python str.startswith on the values used here. -/
def pyStartsWith (s pre : String) : Bool := pre.data.isPrefixOf s.data

/-- Python sep.join(list). -/
def sjoin (sep : String) : List String → String
  | [] => ""
  | [x] => x
  | x :: xs => x ++ sep ++ sjoin sep xs

/-! ### JSON values and the json.loads parser used by find_author -/

/-- JSON values as Python json.loads produces them. Numbers are kept as
exact rationals (Python distinguishes int and float; nothing in the
program depends on that distinction). -/
inductive Json where
  | null
  | bool (b : Bool)
  | num (q : ℚ)
  | str (s : String)
  | arr (elems : List Json)
  | obj (members : List (String × Json))

/-- The opening brace character, kept out of string and char literals. -/
def lbrace : Char := Char.ofNat 123

/-- The closing brace character. -/
def rbrace : Char := Char.ofNat 125

/-- JSON whitespace. -/
def jsonWs (c : Char) : Bool := c = ' ' || c = '\t' || c = '\n' || c = '\r'

def dropWs (cs : List Char) : List Char := cs.dropWhile jsonWs

/-- Value of a hexadecimal digit, if any. -/
def hexDigit (c : Char) : Option ℕ :=
  if c.isDigit then some (c.toNat - 48)
  else if 'a' ≤ c ∧ c ≤ 'f' then some (c.toNat - 87)
  else if 'A' ≤ c ∧ c ≤ 'F' then some (c.toNat - 55)
  else none

/-- Single-character JSON string escapes. -/
def escChar (c : Char) : Option Char :=
  if c = '"' then some '"'
  else if c = '\\' then some '\\'
  else if c = '/' then some '/'
  else if c = 'b' then some (Char.ofNat 8)
  else if c = 'f' then some (Char.ofNat 12)
  else if c = 'n' then some '\n'
  else if c = 'r' then some '\r'
  else if c = 't' then some '\t'
  else none

/-- Parse the body of a JSON string after the opening quote; returns the
decoded characters and the input after the closing quote. Fuel bounds the
recursion; callers pass the input length, which suffices since every step
consumes at least one character. -/
def parseJStr : ℕ → List Char → Option (List Char × List Char)
  | 0, _ => none
  | _ + 1, [] => none
  | n + 1, c :: rest =>
      if c = '"' then some ([], rest)
      else if c = '\\' then
        match rest with
        | [] => none
        | e :: rest2 =>
            if e = 'u' then
              match rest2 with
              | h1 :: h2 :: h3 :: h4 :: rest3 => do
                  let v1 ← hexDigit h1
                  let v2 ← hexDigit h2
                  let v3 ← hexDigit h3
                  let v4 ← hexDigit h4
                  let (s, r) ← parseJStr n rest3
                  some (Char.ofNat (((v1 * 16 + v2) * 16 + v3) * 16 + v4) :: s, r)
              | _ => none
            else do
              let ec ← escChar e
              let (s, r) ← parseJStr n rest2
              some (ec :: s, r)
      else do
        let (s, r) ← parseJStr n rest
        some (c :: s, r)

/-- Natural number denoted by a digit run. -/
def digitsVal (ds : List Char) : ℕ := ds.foldl (fun a c => 10 * a + (c.toNat - 48)) 0

/-- Parse a JSON number (sign, integer part, optional fraction, optional
exponent) into an exact rational. -/
def parseNumber (cs : List Char) : Option (ℚ × List Char) :=
  let neg : Bool := cs.head? = some '-'
  let cs1 := if neg then cs.tail else cs
  let ip := cs1.takeWhile Char.isDigit
  if ip.isEmpty then none else
  let cs2 := cs1.drop ip.length
  let (fr, cs3, okf) := match cs2 with
    | '.' :: r =>
        let ds := r.takeWhile Char.isDigit
        (ds, r.drop ds.length, !ds.isEmpty)
    | _ => ([], cs2, true)
  if !okf then none else
  let (ex, cs4, oke) := match cs3 with
    | 'e' :: r | 'E' :: r =>
        let (esgn, r1) := match r with
          | '+' :: r2 => ((1 : ℤ), r2)
          | '-' :: r2 => ((-1 : ℤ), r2)
          | _ => ((1 : ℤ), r)
        let ds := r1.takeWhile Char.isDigit
        (esgn * (digitsVal ds : ℤ), r1.drop ds.length, !ds.isEmpty)
    | _ => ((0 : ℤ), cs3, true)
  if !oke then none else
  let mantissa : ℚ := (digitsVal ip : ℚ) + (digitsVal fr : ℚ) / ((10 : ℚ) ^ fr.length)
  let value : ℚ := (if neg then -mantissa else mantissa) * (10 : ℚ) ^ ex
  some (value, cs4)

mutual

/-- Parse one JSON value. Fuel bounds nesting depth; the top-level entry
point passes the input length plus one, which suffices since every
recursive step first consumes at least one character. -/
def parseVal : ℕ → List Char → Option (Json × List Char)
  | 0, _ => none
  | n + 1, cs =>
      match dropWs cs with
      | [] => none
      | c :: r =>
          if c = lbrace then parseMembers n r
          else if c = '[' then parseElems n r
          else if c = '"' then
            match parseJStr (r.length + 1) r with
            | some (s, rest) => some (.str ⟨s⟩, rest)
            | none => none
          else if "true".data.isPrefixOf (c :: r) then some (.bool true, (c :: r).drop 4)
          else if "false".data.isPrefixOf (c :: r) then some (.bool false, (c :: r).drop 5)
          else if "null".data.isPrefixOf (c :: r) then some (.null, (c :: r).drop 4)
          else
            match parseNumber (c :: r) with
            | some (q, rest) => some (.num q, rest)
            | none => none

/-- Parse array elements after the opening bracket, including the closing
bracket. -/
def parseElems : ℕ → List Char → Option (Json × List Char)
  | 0, _ => none
  | n + 1, cs =>
      match dropWs cs with
      | ']' :: r => some (.arr [], r)
      | cs1 =>
          match parseVal n cs1 with
          | none => none
          | some (v, rest) =>
              match dropWs rest with
              | ',' :: r2 =>
                  match parseElems n r2 with
                  | some (.arr vs, r3) => some (.arr (v :: vs), r3)
                  | _ => none
              | ']' :: r2 => some (.arr [v], r2)
              | _ => none

/-- Parse object members after the opening brace, including the closing
brace. Duplicate keys are kept in order; lookups take the last occurrence,
like Python dict construction. (Unlike Python, a trailing comma is
accepted; no input used below exercises that difference.) -/
def parseMembers : ℕ → List Char → Option (Json × List Char)
  | 0, _ => none
  | n + 1, cs =>
      match dropWs cs with
      | [] => none
      | c :: r =>
          if c = rbrace then some (.obj [], r)
          else if c = '"' then
            match parseJStr (r.length + 1) r with
            | none => none
            | some (k, r1) =>
                match dropWs r1 with
                | ':' :: r2 =>
                    match parseVal n r2 with
                    | none => none
                    | some (v, r3) =>
                        match dropWs r3 with
                        | ',' :: r4 =>
                            match parseMembers n r4 with
                            | some (.obj ms, r5) => some (.obj ((⟨k⟩, v) :: ms), r5)
                            | _ => none
                        | c2 :: r4 =>
                            if c2 = rbrace then some (.obj [(⟨k⟩, v)], r4) else none
                        | _ => none
                | _ => none
          else none

end

/-- Python json.loads: parse a complete JSON document; trailing data is an
error (json.JSONDecodeError is modelled as the none result). -/
def jsonLoads (s : String) : Option Json :=
  match parseVal (s.data.length + 1) s.data with
  | some (v, rest) => if (dropWs rest).isEmpty then some v else none
  | none => none

/-- Python dict lookup for a dict built from parsed JSON members: the last
occurrence of a duplicated key wins. -/
def dictGet (kvs : List (String × Json)) (k : String) : Option Json :=
  (kvs.reverse.find? (fun kv => kv.1 == k)).map (·.2)

/-- Python dict membership test. -/
def dictHas (kvs : List (String × Json)) (k : String) : Bool :=
  kvs.any (fun kv => kv.1 == k)

/-- Python truthiness of the values find_author can return. -/
def pyTruthyJson : Json → Bool
  | .null => false
  | .bool b => b
  | .num q => if q = 0 then false else true
  | .str s => if s = "" then false else true
  | .arr xs => !xs.isEmpty
  | .obj kvs => !kvs.isEmpty

/-! ### Parsed HTML documents and the BeautifulSoup operations used

A parsed document is a tree of element and text nodes. The parse
collaborator is html.parser via BeautifulSoup: it is lenient (never
fails) and does not synthesize html or body elements that are absent
from the markup. The soup object itself is the root node, with the
document top-level nodes as its children; find and find_all search the
descendants of the node they are called on, in document (pre-order)
order, and find_parent walks the ancestor chain up through the whole
document. -/
inductive Node where
  | elem (tag : String) (attrs : List (String × String)) (children : List Node)
  | text (s : String)

/-- First binding of an attribute (BeautifulSoup keeps the first of a
duplicated attribute). -/
def attrGet (attrs : List (String × String)) (k : String) : Option String :=
  (attrs.find? (fun kv => kv.1 == k)).map (·.2)

/-- Attribute lookup on a node; text nodes have no attributes. -/
def Node.attr : Node → String → Option String
  | .elem _ as _, k => attrGet as k
  | .text _, _ => none

/-- Tag-name test; text nodes match no name. -/
def isTag (t : String) : Node → Bool
  | .elem tg _ _ => tg == t
  | .text _ => false

mutual

/-- BeautifulSoup find: first descendant (pre-order, the node itself
excluded) satisfying the predicate, together with the chain of ancestor
tag names of the match (innermost first), which models what find_parent
can see. -/
def bsFindAnc (p : Node → Bool) (anc : List String) : Node → Option (List String × Node)
  | .text _ => none
  | .elem t _ cs => bsFindAncL p (t :: anc) cs

def bsFindAncL (p : Node → Bool) (anc : List String) : List Node → Option (List String × Node)
  | [] => none
  | c :: cs =>
      if p c then some (anc, c)
      else
        match bsFindAnc p anc c with
        | some r => some r
        | none => bsFindAncL p anc cs

end

/-- BeautifulSoup find, match only. -/
def bsFind (p : Node → Bool) (n : Node) : Option Node := (bsFindAnc p [] n).map Prod.snd

mutual

/-- BeautifulSoup find_all: every descendant satisfying the predicate, in
document order. -/
def bsFindAll (p : Node → Bool) : Node → List Node
  | .text _ => []
  | .elem _ _ cs => bsFindAllL p cs

def bsFindAllL (p : Node → Bool) : List Node → List Node
  | [] => []
  | c :: cs => (if p c then [c] else []) ++ bsFindAll p c ++ bsFindAllL p cs

end

mutual

/-- All anchor elements carrying an href attribute among the descendants
of a node (body.find_all("a", href=True)), each with its attribute list
and the tag names of all its ancestors, innermost first, including the
ancestors of the starting node itself (find_parent searches the whole
document, not just the region). -/
def anchorsAnc (anc : List String) : Node → List (List String × List (String × String))
  | .text _ => []
  | .elem t _ cs => anchorsAncL (t :: anc) cs

def anchorsAncL (anc : List String) : List Node → List (List String × List (String × String))
  | [] => []
  | c :: cs =>
      (match c with
       | .elem "a" as _ => if (attrGet as "href").isSome then [(anc, as)] else []
       | _ => []) ++ anchorsAnc anc c ++ anchorsAncL anc cs

end

mutual

/-- The descendant text-node strings of a node, in document order
(the strings get_text concatenates). -/
def allStrings : Node → List String
  | .text s => [s]
  | .elem _ _ cs => allStringsL cs

def allStringsL : List Node → List String
  | [] => []
  | c :: cs => allStrings c ++ allStringsL cs

end

/-- BeautifulSoup get_text(strip=True): each descendant string stripped,
empty results dropped, the rest concatenated. -/
def getTextStrip (n : Node) : String :=
  String.join (((allStrings n).map pyStrip).filter (· ≠ ""))

/-- BeautifulSoup .string: the single text child, or the .string of a
single element child; None when the node has zero or several children. -/
def nodeString : Node → Option String
  | .text s => some s
  | .elem _ _ [c] => nodeString c
  | .elem _ _ _ => none

/-! ### The extraction functions of src/app.py -/

/-- Python exceptions that can escape the functions modelled here. The
per-URL try block of main stores their str() rendering in the Error
field; the KeyError from the aggregation step escapes main. -/
inductive PyErr where
  | fetchError (msg : String)
  | attributeError (msg : String)
  | valueError (msg : String)
  | keyError (cols : List String)
deriving DecidableEq, Repr

/-- str(e) for a caught exception, as stored in an Error record. -/
def pyErrMsg : PyErr → String
  | .fetchError m => m
  | .attributeError m => m
  | .valueError m => m
  | .keyError cols => sjoin ", " cols

def isMainTag : Node → Bool := isTag "main"

def isArticleTag : Node → Bool := isTag "article"

/-- soup.find(attrs=dict(role="main")): any element whose role attribute
is exactly "main". -/
def isRoleMain (n : Node) : Bool := n.attr "role" == some "main"

def isBodyTag : Node → Bool := isTag "body"

/-- extract_body (src/app.py lines 40-51) with the ancestor chain of the
selected region retained (extract_links later consults ancestors through
find_parent): prefer the first main element, then the first article, then
the first element with role "main", finally soup.find("body") - which is
None when the document has no body element. -/
def extract_bodyAnc (soup : Node) : Option (List String × Node) :=
  match bsFindAnc isMainTag [] soup with
  | some r => some r
  | none =>
      match bsFindAnc isArticleTag [] soup with
      | some r => some r
      | none =>
          match bsFindAnc isRoleMain [] soup with
          | some r => some r
          | none => bsFindAnc isBodyTag [] soup

/-- extract_body as the source returns it: the region node only. -/
def extract_body (soup : Node) : Option Node := (extract_bodyAnc soup).map Prod.snd

/-- get_paragraph_texts (lines 54-55): stripped text of every p element
below the region. -/
def get_paragraph_texts (body : Node) : List String :=
  (bsFindAll (isTag "p") body).map getTextStrip

/-- Heading elements h1 through h6. -/
def isHeading (n : Node) : Bool :=
  isTag "h1" n || isTag "h2" n || isTag "h3" n || isTag "h4" n || isTag "h5" n || isTag "h6" n

/-- count_sections (lines 58-59). -/
def count_sections (body : Node) : ℕ := (bsFindAll isHeading body).length

def isMetaNameAuthor (n : Node) : Bool :=
  isTag "meta" n && (n.attr "name" == some "author")

def isMetaPropAuthor (n : Node) : Bool :=
  isTag "meta" n && (n.attr "property" == some "article:author")

/-- The metadata stage of find_author (lines 63-66): the first meta tag
with name "author", or else with property "article:author"; its content
attribute is returned when present and non-empty. A found tag with an
empty or missing content attribute does not fall back to the other meta
selector (the Python or chooses the first found tag). -/
def metaAuthor (soup : Node) : Option String :=
  let meta := match bsFind isMetaNameAuthor soup with
    | some m => some m
    | none => bsFind isMetaPropAuthor soup
  match meta with
  | some m =>
      match m.attr "content" with
      | some c => if c = "" then none else some c
      | none => none
  | none => none

/-- The structured-data script blocks, in document order. -/
def ldScripts (soup : Node) : List Node :=
  bsFindAll (fun n => isTag "script" n && (n.attr "type" == some "application/ld+json")) soup

/-- The structured-data stage of find_author (lines 67-76). For each
script block: json.loads(tag.string or "&#123;&#125;"-style empty object when
the string is None or empty); a parse failure is caught and skipped; on a
parsed object, data.get("author") yields the author member (absent gives
None); a dict author with a name member returns that member, a plain
string author is returned directly, anything else falls through to the
next block. A parsed document whose top level is not an object raises
AttributeError from data.get, which the except clause (JSONDecodeError
only) does not catch. The Option in the result records control flow,
not a value distinction: .ok none means the loop fell through without
executing a return (so resolution continues with the next stage), while
.ok (some j) means a return statement ran with value j - where j can be
Json.null, modelling a name field holding JSON null, which Python
returns as None. -/
def ldAuthorLoop : List Node → Except PyErr (Option Json)
  | [] => .ok none
  | tag :: rest =>
      let raw := match nodeString tag with
        | some s => if s = "" then String.mk [lbrace, rbrace] else s
        | none => String.mk [lbrace, rbrace]
      match jsonLoads raw with
      | none => ldAuthorLoop rest
      | some (.obj kvs) =>
          match dictGet kvs "author" with
          | some (.obj akvs) =>
              if dictHas akvs "name" then .ok (dictGet akvs "name") else ldAuthorLoop rest
          | some (.str s) => .ok (some (.str s))
          | some _ => ldAuthorLoop rest
          | none => ldAuthorLoop rest
      | some _ => .error (.attributeError "object has no attribute get")

/-- The markup-hint stage of find_author (lines 77-78): the first anchor
whose rel attribute contains the token "author" (BeautifulSoup treats rel
as a whitespace-separated multi-valued attribute). -/
def relAuthorAnchor (soup : Node) : Option Node :=
  bsFind (fun n =>
    isTag "a" n &&
      (match n.attr "rel" with
       | some v => (pySplitWs v).contains "author"
       | none => false)) soup

/-- find_author (lines 62-78): metadata stage, then structured-data
stage, then author-rel anchor, else None. Python has a single return
channel: the absent case returns None, and a structured-data name field
holding JSON null also returns None - the two are indistinguishable to
the caller. The result is therefore a single Json value whose null
constructor is Python None; any other JSON value can be returned as-is
(a dict author name member is returned unchanged). -/
def find_author (soup : Node) : Except PyErr Json :=
  match metaAuthor soup with
  | some c => .ok (.str c)
  | none =>
      match ldAuthorLoop (ldScripts soup) with
      | .error e => .error e
      | .ok (some j) => .ok j
      | .ok none =>
          match relAuthorAnchor soup with
          | some a => .ok (.str (getTextStrip a))
          | none => .ok .null

/-- extract_links (lines 81-95) on a region whose ancestor tag chain in
the document is ancRegion: every anchor with an href below the region,
skipped when a nav or footer element is among its ancestors, with the
href stripped; in-page anchors (leading hash) are skipped, and only hrefs
containing a dot are kept. The Python set of kept hrefs is modelled as a
deduplicated list (Python set iteration order is unspecified; only
membership and cardinality are ever used). -/
def extract_links (ancRegion : List String) (body : Node) : List String :=
  ((anchorsAnc ancRegion body).filterMap fun pr =>
    if pr.1.contains "nav" || pr.1.contains "footer" then none
    else
      match attrGet pr.2 "href" with
      | some v =>
          let href := pyStrip v
          if pyStartsWith href "#" then none
          else if href.data.contains '.' then some href else none
      | none => none).dedup

/-! ### compute_relevancy (lines 98-102)

TfidfVectorizer with default settings over the two-document corpus
[keyword, title + " " + text]: lowercase, tokens are maximal runs of word
characters of length at least two, smooth idf. With two documents the idf
weight of a token occurring in both documents is 1 and of a token
occurring in only one document is 1 + ln(3/2). Writing L for
(1 + ln(3/2))^2, the cosine similarity returned is

  n / sqrt((a1 + L * a2) * (b1 + L * b2))

where n is the sum over shared tokens of the product of the two term
counts, a1/b1 the sums of squared counts of shared tokens in each
document and a2/b2 the sums of squared counts of the tokens unique to
each document. The structure Rel records these five rationals, an exact
symbolic representation of the float the program computes; no later step
of the program inspects this value, it is only stored and multiplied by a
weight. sklearn defines the similarity against a zero vector as 0.0; the
representation with n = 0 stands for that value. An empty vocabulary
(no token in either document) makes TfidfVectorizer.fit raise
ValueError. -/

/-- A word character for the default sklearn token pattern. -/
def wordChar (c : Char) : Bool := c.isAlphanum || c = '_'

/-- Maximal runs of word characters (the accumulator holds the current
run reversed). -/
def tokenRuns : List Char → List Char → List (List Char)
  | [], acc => if acc.isEmpty then [] else [acc.reverse]
  | c :: cs, acc =>
      if wordChar c then tokenRuns cs (c :: acc)
      else if acc.isEmpty then tokenRuns cs [] else acc.reverse :: tokenRuns cs []

/-- sklearn default tokenization: lowercase, maximal word-character runs
of length at least two. -/
def skTokens (s : String) : List String :=
  ((tokenRuns (pyLower s).data []).filter (fun r => 2 ≤ r.length)).map fun cs => (⟨cs⟩ : String)

/-- Exact symbolic value of the tf-idf cosine similarity, see above. -/
structure Rel where
  n : ℚ
  a1 : ℚ
  a2 : ℚ
  b1 : ℚ
  b2 : ℚ
deriving DecidableEq, Repr

/-- Python str conversion as an f-string performs it; None renders as
the four letters None. -/
def pyFStr : Option String → String
  | some s => s
  | none => "None"

/-- compute_relevancy (lines 98-102): the title argument is the Python
value soup.title.string if soup.title else "", which can be None. -/
def compute_relevancy (text : String) (title : Option String) (keyword : String) :
    Except PyErr Rel :=
  let docB := pyFStr title ++ " " ++ text
  let ta := skTokens keyword
  let tb := skTokens docB
  let vocab := (ta ++ tb).dedup
  if vocab.isEmpty then .error (.valueError "empty vocabulary")
  else
    .ok (vocab.foldl (fun r t =>
      let na := ta.count t
      let nb := tb.count t
      if na ≠ 0 && nb ≠ 0 then
        { r with n := r.n + (na : ℚ) * nb, a1 := r.a1 + (na : ℚ) * na,
                 b1 := r.b1 + (nb : ℚ) * nb }
      else
        { r with a2 := r.a2 + (na : ℚ) * na, b2 := r.b2 + (nb : ℚ) * nb }) ⟨0, 0, 0, 0, 0⟩)

/-! ### The batch pipeline of main (lines 105-188) -/

/-- The five score weights (relevancy, word count, links, sections,
author), as read from the sliders. -/
structure Weights where
  wr : ℚ
  ww : ℚ
  wl : ℚ
  ws : ℚ
  wa : ℚ
deriving DecidableEq, Repr

/-- Weight normalization (lines 123-129): divide by the total when it is
positive, otherwise leave the raw weights unchanged. -/
def normWeights (w : Weights) : Weights :=
  let total := w.wr + w.ww + w.wl + w.ws + w.wa
  if 0 < total then
    ⟨w.wr / total, w.ww / total, w.wl / total, w.ws / total, w.wa / total⟩
  else w

/-- A fully populated per-document record (lines 155-163). -/
structure SuccRow where
  domain : String
  url : String
  wordCount : ℕ
  relevancy : Rel
  sections : ℕ
  authorPresent : ℕ
  outboundLinks : ℕ
deriving DecidableEq, Repr

/-- A row of the results list: either a fully populated record or an
error record carrying only Domain, URL and Error (line 165). -/
inductive RowRecord where
  | ok (r : SuccRow)
  | err (domain url emsg : String)
deriving DecidableEq, Repr

def RowRecord.url : RowRecord → String
  | .ok r => r.url
  | .err _ u _ => u

def RowRecord.domain : RowRecord → String
  | .ok r => r.domain
  | .err d _ _ => d

def RowRecord.isOk : RowRecord → Bool
  | .ok _ => true
  | .err _ _ _ => false

/-- soup.title handling of line 150: the .string of the first title
element (which can be None), or the empty string when there is no title
element. -/
def pyTitle (soup : Node) : Option String :=
  match bsFind (isTag "title") soup with
  | some t => nodeString t
  | none => some ""

/-- The body of the per-URL try block (lines 143-163). The fetch
collaborator (fetch_page composed with parse_html) either returns a
parsed document or fails with a transport or HTTP error message. When
extract_body returns None, the call get_paragraph_texts(None) raises
AttributeError. The steps run in source order: fetch, locate, text and
word count, title, relevancy, sections, author, links. -/
def analyzeTry (keyword : String) (fetch : String → Except String Node) (url : String) :
    Except PyErr SuccRow :=
  match fetch url with
  | .error m => .error (.fetchError m)
  | .ok soup =>
    match extract_bodyAnc soup with
    | none => .error (.attributeError "NoneType object has no attribute find_all")
    | some ab =>
      let text := sjoin " " (get_paragraph_texts ab.2)
      let wc := pyWordCount text
      let title := pyTitle soup
      match compute_relevancy text title keyword with
      | .error e => .error e
      | .ok rel =>
        let sections := count_sections ab.2
        match find_author soup with
        | .error e => .error e
        | .ok author =>
          let hasAuthor : ℕ := if pyTruthyJson author then 1 else 0
          let links := (extract_links ab.1 ab.2).length
          .ok ⟨recordDomain url, url, wc, rel, sections, hasAuthor, links⟩

/-- One loop iteration of lines 140-165: any exception from the try block
is caught and becomes an error record; the loop then continues with the
next URL. -/
def analyzeUrl (keyword : String) (fetch : String → Except String Node) (url : String) :
    RowRecord :=
  match analyzeTry keyword fetch url with
  | .ok r => .ok r
  | .error e => .err (recordDomain url) url (pyErrMsg e)

/-- The subset argument of the dropna call on line 168. -/
def numericCols : List String :=
  ["Word Count", "Relevancy", "Sections", "Author Present", "Outbound Links"]

/-- The keys a record contributes to the DataFrame columns. -/
def rowKeys : RowRecord → List String
  | .ok _ => ["Domain", "URL", "Word Count", "Relevancy", "Sections", "Author Present",
              "Outbound Links"]
  | .err _ _ _ => ["Domain", "URL", "Error"]

/-- The columns of pd.DataFrame(results): the union of the record keys. -/
def dfCols (rows : List RowRecord) : List String := ((rows.map rowKeys).flatten).dedup

/-- The rows carrying every numeric field. -/
def successes (rows : List RowRecord) : List SuccRow :=
  rows.filterMap fun r =>
    match r with
    | .ok s => some s
    | .err _ _ _ => none

/-- df.dropna(subset=numericCols) on line 168. pandas raises KeyError
when a subset label is missing from the frame columns - which happens
exactly when no record is fully populated, since error records contribute
no numeric columns. Otherwise the error rows hold NaN in every numeric
column and are dropped, leaving the fully populated rows. -/
def dropnaSubset (rows : List RowRecord) : Except PyErr (List SuccRow) :=
  if numericCols.all (fun c => (dfCols rows).contains c) then .ok (successes rows)
  else .error (.keyError (numericCols.filter (fun c => !(dfCols rows).contains c)))

/-- A row of df_norm: url, unnormalized relevancy and author flag, and
the three normalized metric columns, which are floats (NaN when the
column maximum is zero, since 0/0 is NaN). -/
structure NormRow where
  url : String
  relevancy : Rel
  wcN : PFloat
  secN : PFloat
  olN : PFloat
  authorPresent : ℕ
deriving DecidableEq, Repr

/-- pandas Series.max over a column of naturals (NaN on an empty column,
which the not-empty guard of line 169 keeps unreachable). -/
def colMax (xs : List ℕ) : PFloat :=
  match xs with
  | [] => .nan
  | _ => .num ((xs.foldl max 0 : ℕ) : ℚ)

/-- The three column divisions of lines 171-173: each value divided by
its column maximum with float semantics, so an all-zero column becomes
NaN everywhere. -/
def normStep (rows : List SuccRow) : List NormRow :=
  let mWC := colMax (rows.map (·.wordCount))
  let mSec := colMax (rows.map (·.sections))
  let mOL := colMax (rows.map (·.outboundLinks))
  rows.map fun r =>
    ⟨r.url, r.relevancy,
     PFloat.div (.num (r.wordCount : ℚ)) mWC,
     PFloat.div (.num (r.sections : ℚ)) mSec,
     PFloat.div (.num (r.outboundLinks : ℚ)) mOL,
     r.authorPresent⟩

/-- The overall score of lines 174-180 in exact form: the relevancy term
is weight times the symbolic cosine (structure Rel), the rest is the
float sum of the four remaining weighted metrics (NaN when any
normalized metric is NaN). -/
structure ScoreVal where
  rel : Rel
  relW : ℚ
  rest : PFloat
deriving DecidableEq, Repr

/-- Compute the Overall Score column over df_norm, keyed by URL
(df_norm carries one row per df_clean row). -/
def scoreStep (w : Weights) (rows : List NormRow) : List (String × ScoreVal) :=
  rows.map fun r =>
    (r.url,
     ⟨r.relevancy, w.wr,
      (r.wcN.mul (.num w.ww)).add
        ((r.olN.mul (.num w.wl)).add
          ((r.secN.mul (.num w.ws)).add
            ((PFloat.num (r.authorPresent : ℚ)).mul (.num w.wa))))⟩)

/-- df.merge(df_norm[[URL, Overall Score]], on="URL", how="left") of
line 181: left rows in order; each left row is repeated once per
matching right row, or kept once with a missing score when no right row
matches. -/
def mergeScores (rows : List RowRecord) (scored : List (String × ScoreVal)) :
    List (RowRecord × Option ScoreVal) :=
  rows.map (fun r =>
    match scored.filter (fun p => p.1 == r.url) with
    | [] => [(r, none)]
    | ms => ms.map fun p => (r, some p.2)) |>.flatten

/-- The analysis branch of main (lines 134-184). none models the early
return of lines 136-138 (no URLs or empty keyword: a sidebar error and
no analysis at all). Otherwise the per-URL loop always completes and the
aggregation step may raise (KeyError when every record is an error
record); on success the result is the displayed frame: the records in
input order, each with its optional overall score (when no record
survives dropna cleanly - impossible without a KeyError - the frame
simply has no score column, modelled as a score of none throughout). -/
def pyMain (urls : List String) (keyword : String) (fetch : String → Except String Node)
    (w : Weights) : Option (Except PyErr (List (RowRecord × Option ScoreVal))) :=
  if urls.isEmpty || keyword == "" then none
  else
    some (do
      let nw := normWeights w
      let results := urls.map (analyzeUrl keyword fetch)
      let clean ← dropnaSubset results
      if clean.isEmpty then
        return results.map fun r => (r, none)
      else
        return mergeScores results (scoreStep nw (normStep clean)))

/-! ### Concrete documents and inputs used by witnesses and counterexamples -/

/-- A plain article page: title, body, one paragraph. -/
def docSimple : Node :=
  .elem "[document]" [] [
    .elem "html" [] [
      .elem "head" [] [.elem "title" [] [.text "Hello Page"]],
      .elem "body" [] [.elem "p" [] [.text "seo tips and tricks"]]]]

/-- A fetch collaborator for which every URL succeeds with docSimple. -/
def fetchSimple : String → Except String Node := fun _ => .ok docSimple

/-- A fetch collaborator for which every URL fails with a transport error. -/
def fetchFail : String → Except String Node := fun _ => .error "connection refused"

/-- The default slider weights of the sidebar (0.4, 0.2, 0.2, 0.1, 0.1). -/
def wDefault : Weights := ⟨2/5, 1/5, 1/5, 1/10, 1/10⟩

/-- A document with no main, article, role="main" or body element, as
html.parser produces for a bare div fragment (html.parser does not
synthesize a body). -/
def docNoBody : Node :=
  .elem "[document]" [] [.elem "div" [] [.elem "p" [] [.text "hello"]]]

/-- The article element of docArticle. -/
def artNode : Node := .elem "article" [] [.text "story"]

/-- A document with an article element but no main element. -/
def docArticle : Node :=
  .elem "[document]" [] [
    .elem "html" [] [.elem "body" [] [artNode]]]

/-- The body of docLdArray: headings and a link but no paragraph. -/
def ldBody : Node :=
  .elem "body" [] [
    .elem "h2" [] [.text "Section"],
    .elem "a" [("href", "https://example.com/a.html")] [.text "link"]]

/-- A page whose structured-data block holds a JSON array (valid JSON,
top level not an object) and whose content region has no paragraphs,
while every other signal is extractable. -/
def docLdArray : Node :=
  .elem "[document]" [] [
    .elem "html" [] [
      .elem "head" [] [
        .elem "title" [] [.text "Numbers Page"],
        .elem "script" [("type", "application/ld+json")] [.text "[1, 2]"]],
      ldBody]]

/-- A page like docLdArray but without the structured-data block: every
stage succeeds and the content region has no paragraphs. -/
def docNoParagraphs : Node :=
  .elem "[document]" [] [
    .elem "html" [] [
      .elem "head" [] [.elem "title" [] [.text "Numbers Page"]],
      ldBody]]

/-- A page carrying both a metadata author (Alice) and a conflicting
structured-data author (Bob). -/
def docMetaConflict : Node :=
  .elem "[document]" [] [
    .elem "html" [] [
      .elem "head" [] [
        .elem "meta" [("name", "author"), ("content", "Alice")] [],
        .elem "script" [("type", "application/ld+json")]
          [.text "\x7b\"author\": \"Bob\"\x7d"]],
      .elem "body" [] []]]

/-- A page whose structured-data author object carries a JSON-null name
field, alongside an author-rel anchor that the third stage would find:
Python returns the null name (None) and never consults the anchor. -/
def docNullName : Node :=
  .elem "[document]" [] [
    .elem "html" [] [
      .elem "head" [] [
        .elem "script" [("type", "application/ld+json")]
          [.text "\x7b\"author\": \x7b\"name\": null\x7d\x7d"]],
      .elem "body" [] [.elem "a" [("rel", "author")] [.text "Carol"]]]]

/-- A region exercising each link-extraction filter: a navigation-nested
anchor whose href has a dot, a fragment anchor, a dotless relative path
and a regular external link. -/
def linksBody : Node :=
  .elem "body" [] [
    .elem "nav" [] [.elem "a" [("href", "nav.example.com/x.html")] [.text "n"]],
    .elem "a" [("href", "#section")] [.text "s"],
    .elem "a" [("href", "/about")] [.text "ab"],
    .elem "a" [("href", "https://example.com/a.html")] [.text "ok"]]

/-- A fetch collaborator failing exactly on the second witness URL. -/
def fetchSecondFails : String → Except String Node := fun u =>
  if u = "http://b.com/2.html" then .error "HTTP 500" else .ok docSimple

/-- An all-zero relevancy value, used to build rows for the
normalization theorems. -/
def relZ : Rel := ⟨0, 0, 0, 0, 0⟩

/-- A success row whose three normalizable metrics all have a value v. -/
def rowV (u : String) (v : ℕ) : SuccRow := ⟨"d", u, v, relZ, v, 0, v⟩

/-! ### Support lemmas -/

theorem analyzeTry_ok_fields {kw : String} {fetch : String → Except String Node}
    {url : String} {s : SuccRow} (h : analyzeTry kw fetch url = .ok s) :
    s.url = url ∧ s.domain = recordDomain url := by
  unfold analyzeTry at h
  dsimp only at h
  repeat' split at h
  all_goals first
    | exact Except.noConfusion h
    | (cases h; exact ⟨rfl, rfl⟩)

theorem analyzeUrl_ok_url {kw : String} {fetch : String → Except String Node}
    {u : String} {s : SuccRow} (h : analyzeUrl kw fetch u = .ok s) :
    s.url = u := by
  unfold analyzeUrl at h
  cases ht : analyzeTry kw fetch u with
  | error e => rw [ht] at h; cases h
  | ok r =>
      rw [ht] at h
      cases h
      exact (analyzeTry_ok_fields ht).1

theorem analyzeUrl_url (kw : String) (fetch : String → Except String Node) (u : String) :
    (analyzeUrl kw fetch u).url = u := by
  unfold analyzeUrl
  cases ht : analyzeTry kw fetch u with
  | error e => rfl
  | ok r => simpa [RowRecord.url] using (analyzeTry_ok_fields ht).1

theorem analyzeUrl_domain (kw : String) (fetch : String → Except String Node) (u : String) :
    (analyzeUrl kw fetch u).domain = recordDomain u := by
  unfold analyzeUrl
  cases ht : analyzeTry kw fetch u with
  | error e => rfl
  | ok r => simpa [RowRecord.domain] using (analyzeTry_ok_fields ht).2

theorem mem_successes {rows : List RowRecord} {s : SuccRow} :
    s ∈ successes rows ↔ RowRecord.ok s ∈ rows := by
  simp only [successes, List.mem_filterMap]
  constructor
  · rintro ⟨r, hr, he⟩
    cases r with
    | ok t => simp only [Option.some.injEq] at he; subst he; exact hr
    | err d u m => simp at he
  · intro hr
    exact ⟨.ok s, hr, rfl⟩

theorem mem_successes_map {A : String → RowRecord} {urls : List String} {s : SuccRow}
    (h : s ∈ successes (urls.map A)) : ∃ u ∈ urls, A u = .ok s := by
  rcases List.mem_map.mp (mem_successes.mp h) with ⟨u, hu, he⟩
  exact ⟨u, hu, he⟩

theorem dropna_ok {rows : List RowRecord}
    (h : ∃ r ∈ rows, r.isOk = true) : dropnaSubset rows = .ok (successes rows) := by
  rcases h with ⟨r, hr, hok⟩
  cases r with
  | err d u m => simp [RowRecord.isOk] at hok
  | ok s =>
      unfold dropnaSubset
      rw [if_pos]
      apply List.all_eq_true.mpr
      intro c hc
      apply List.elem_eq_true_of_mem
      simp only [dfCols, List.mem_dedup, List.mem_flatten]
      refine ⟨rowKeys (.ok s), List.mem_map.mpr ⟨.ok s, hr, rfl⟩, ?_⟩
      simp only [numericCols, List.mem_cons, List.not_mem_nil, or_false] at hc
      rcases hc with rfl | rfl | rfl | rfl | rfl <;> simp [rowKeys]

theorem le_foldl_max (xs : List ℕ) (a : ℕ) : a ≤ xs.foldl max a := by
  induction xs generalizing a with
  | nil => simp
  | cons x xs ih => exact le_trans (le_max_left a x) (ih (max a x))

theorem mem_le_foldl_max {xs : List ℕ} {x : ℕ} (a : ℕ) (h : x ∈ xs) :
    x ≤ xs.foldl max a := by
  induction xs generalizing a with
  | nil => cases h
  | cons y ys ih =>
      simp only [List.foldl_cons]
      rcases List.mem_cons.mp h with rfl | hy
      · exact le_trans (le_max_right a x) (le_foldl_max ys (max a x))
      · exact ih (max a y) hy

theorem colMax_zero_all {xs : List ℕ} (h : colMax xs = .num 0) :
    ∀ x ∈ xs, x = 0 := by
  intro x hx
  cases xs with
  | nil => cases hx
  | cons y ys =>
      simp only [colMax, PFloat.num.injEq] at h
      have hfold : (y :: ys).foldl max 0 = 0 := by exact_mod_cast h
      have hle := mem_le_foldl_max (x := x) 0 hx
      omega

theorem mem_mergeScores_fst {rows : List RowRecord} {scored : List (String × ScoreVal)}
    {p : RowRecord × Option ScoreVal} (h : p ∈ mergeScores rows scored) : p.1 ∈ rows := by
  unfold mergeScores at h
  rcases List.mem_flatten.mp h with ⟨l, hl, hp⟩
  rcases List.mem_map.mp hl with ⟨r, hr, he⟩
  subst he
  revert hp
  split
  · intro hp
    rcases List.mem_singleton.mp hp with rfl
    exact hr
  · intro hp
    rcases List.mem_map.mp hp with ⟨q, _, he2⟩
    rw [← he2]
    exact hr

theorem mergeScores_map_fst {rows : List RowRecord} {scored : List (String × ScoreVal)}
    (h : ∀ r ∈ rows, (scored.filter (fun p => p.1 == r.url) = []) ∨
      (∃ x, scored.filter (fun p => p.1 == r.url) = [x])) :
    (mergeScores rows scored).map Prod.fst = rows := by
  induction rows with
  | nil => rfl
  | cons r rs ih =>
      have hr := h r (List.mem_cons_self r rs)
      have hrest : (mergeScores rs scored).map Prod.fst = rs :=
        ih (fun t ht => h t (List.mem_cons_of_mem r ht))
      unfold mergeScores at *
      simp only [List.map_cons, List.flatten_cons, List.map_append]
      rcases hr with he | ⟨x, he⟩ <;> rw [he] <;> simp [hrest]

theorem mergeScores_err_none {rows : List RowRecord} {scored : List (String × ScoreVal)}
    (h : ∀ r ∈ rows, r.isOk = false → scored.filter (fun p => p.1 == r.url) = [])
    {p : RowRecord × Option ScoreVal} (hp : p ∈ mergeScores rows scored)
    (herr : p.1.isOk = false) : p.2 = none := by
  unfold mergeScores at hp
  rcases List.mem_flatten.mp hp with ⟨l, hl, hpl⟩
  rcases List.mem_map.mp hl with ⟨r, hr, he⟩
  subst he
  revert hpl
  split
  · intro hpl
    rcases List.mem_singleton.mp hpl with rfl
    rfl
  · intro hpl
    rcases List.mem_map.mp hpl with ⟨q, hq, he2⟩
    have hp1 : p.1 = r := by rw [← he2]
    have := h r hr (by rwa [hp1] at herr)
    rw [this] at hq
    cases hq

theorem filter_successes_of_ok {A : String → RowRecord}
    (hA : ∀ v s, A v = .ok s → s.url = v)
    {urls : List String} (hnd : urls.Nodup) {u : String} {s : SuccRow}
    (hu : u ∈ urls) (hok : A u = .ok s) :
    (successes (urls.map A)).filter (fun t => t.url == u) = [s] := by
  induction urls with
  | nil => cases hu
  | cons v vs ih =>
      have hv : v ∉ vs := (List.nodup_cons.mp hnd).1
      have hnd' : vs.Nodup := (List.nodup_cons.mp hnd).2
      have hrest_nil : u ∉ vs →
          (successes (vs.map A)).filter (fun t => t.url == u) = [] := by
        intro hnu
        apply List.filter_eq_nil_iff.mpr
        intro t ht
        rcases mem_successes_map ht with ⟨w, hw, hww⟩
        have : t.url = w := hA w t hww
        simp only [this, beq_iff_eq]
        intro hwu
        exact hnu (hwu ▸ hw)
      rcases List.mem_cons.mp hu with rfl | hu'
      · have hs : s.url = u := hA u s hok
        have hrest := hrest_nil hv
        simp only [successes] at hrest
        simp only [List.map_cons, successes, List.filterMap_cons, hok]
        rw [List.filter_cons]
        simp only [hs, beq_self_eq_true, if_true, List.cons.injEq, true_and]
        exact hrest
      · have hvu : v ≠ u := fun he => hv (he ▸ hu')
        simp only [List.map_cons, successes, List.filterMap_cons]
        cases hAv : A v with
        | ok t =>
            have ht : t.url = v := hA v t hAv
            have : (t.url == u) = false := by simp [ht, hvu]
            simp only [List.filter_cons, this, if_neg Bool.false_ne_true]
            have := ih hnd' hu'
            simpa [successes] using this
        | err d w m =>
            have := ih hnd' hu'
            simpa [successes] using this

theorem filter_successes_of_err {A : String → RowRecord}
    (hA : ∀ v s, A v = .ok s → s.url = v)
    {urls : List String} {u : String} (hbad : (A u).isOk = false) :
    (successes (urls.map A)).filter (fun t => t.url == u) = [] := by
  apply List.filter_eq_nil_iff.mpr
  intro t ht
  rcases mem_successes_map ht with ⟨w, hw, hww⟩
  have htw : t.url = w := hA w t hww
  simp only [htw, beq_iff_eq]
  intro hwu
  subst hwu
  rw [hww] at hbad
  simp [RowRecord.isOk] at hbad

/-! ### The claims -/

/-- C1: an all-failed batch does not produce a BatchResult of error
records: the per-URL loop does record the error (second conjunct), but
the aggregation step raises KeyError from dropna, because an all-error
frame has none of the five numeric columns (first conjunct). The spec
says such a batch is tolerated; the dead not-empty guard on line 169
shows that was the intent, so this is a code bug. -/
theorem c1_all_failed_batch_raises :
    pyMain ["http://down.example.com/"] "seo" fetchFail wDefault =
      some (.error (.keyError numericCols)) ∧
    analyzeUrl "seo" fetchFail "http://down.example.com/" =
      .err "down.example.com" "http://down.example.com/" "connection refused" :=
  ⟨rfl, rfl⟩

/-- C2 counterexample: in a batch of two error-free records whose word
counts are both 0, the normalized word count is NaN (0.0/0.0) for every
record, and NaN is not 0 - refuting the claim that a zero column maximum
yields normalized value 0. -/
theorem c2_counterexample :
    (normStep [rowV "u0" 0, rowV "u1" 0]).map (fun nr => nr.wcN) = [.nan, .nan] ∧
    PFloat.nan ≠ PFloat.num 0 := by
  constructor
  · simp [normStep, colMax, rowV, PFloat.div]
  · decide

/-- C2 amended: batch normalization maps word counts 0, 50, 100 to 0.0,
0.5, 1.0 (and likewise for the section and outbound-link counts), but
when a metric column maximum is 0 the normalized value of that metric is
NaN for every record in the subset (a float 0/0), not 0. -/
theorem c2_batch_normalization :
    ((normStep [rowV "u0" 0, rowV "u1" 50, rowV "u2" 100]).map
        (fun nr => (nr.wcN, nr.secN, nr.olN)) =
      [(.num 0, .num 0, .num 0), (.num (1/2), .num (1/2), .num (1/2)),
       (.num 1, .num 1, .num 1)]) ∧
    (∀ rows : List SuccRow, colMax (rows.map (·.wordCount)) = .num 0 →
      ∀ nr ∈ normStep rows, nr.wcN = .nan) ∧
    (∀ rows : List SuccRow, colMax (rows.map (·.sections)) = .num 0 →
      ∀ nr ∈ normStep rows, nr.secN = .nan) ∧
    (∀ rows : List SuccRow, colMax (rows.map (·.outboundLinks)) = .num 0 →
      ∀ nr ∈ normStep rows, nr.olN = .nan) := by
  refine ⟨?_, ?_, ?_, ?_⟩
  · simp [normStep, colMax, rowV, PFloat.div]
    norm_num
  · intro rows hmax nr hnr
    rcases List.mem_map.mp hnr with ⟨r, hr, he⟩
    have h0 : r.wordCount = 0 :=
      colMax_zero_all hmax r.wordCount (List.mem_map.mpr ⟨r, hr, rfl⟩)
    rw [← he]
    simp [hmax, h0, PFloat.div]
  · intro rows hmax nr hnr
    rcases List.mem_map.mp hnr with ⟨r, hr, he⟩
    have h0 : r.sections = 0 :=
      colMax_zero_all hmax r.sections (List.mem_map.mpr ⟨r, hr, rfl⟩)
    rw [← he]
    simp [hmax, h0, PFloat.div]
  · intro rows hmax nr hnr
    rcases List.mem_map.mp hnr with ⟨r, hr, he⟩
    have h0 : r.outboundLinks = 0 :=
      colMax_zero_all hmax r.outboundLinks (List.mem_map.mpr ⟨r, hr, rfl⟩)
    rw [← he]
    simp [hmax, h0, PFloat.div]

/-- C2 witness: the amended theorem applied to a concrete one-row batch
with word count 0: the column maximum is 0 and the normalized word count
of every row is NaN. -/
theorem c2_witness :
    colMax ([rowV "u0" 0].map (·.wordCount)) = .num 0 ∧
    ∀ nr ∈ normStep [rowV "u0" 0], nr.wcN = .nan := by
  refine ⟨by simp [colMax, rowV], ?_⟩
  exact c2_batch_normalization.2.1 [rowV "u0" 0] (by simp [colMax, rowV])

/-- C6: with an empty keyword the analysis refuses to run at all (the
caller-side guard of line 136 returns before any URL is processed), so
no record is produced; in particular no record carries a relevancy of
0.0 and the relevancy scorer is never invoked. -/
theorem c6_empty_keyword (urls : List String) (fetch : String → Except String Node)
    (w : Weights) : pyMain urls "" fetch w = none := by
  simp [pyMain]

/-- C6 witness: the empty-keyword theorem applied to a concrete one-URL
batch: no analysis output exists. -/
theorem c6_witness : pyMain ["http://a.com/x.html"] "" fetchSimple wDefault = none :=
  c6_empty_keyword ["http://a.com/x.html"] fetchSimple wDefault

/-- C10: a structured-data block holding a JSON array (valid JSON whose
top level is not an object) makes find_author raise AttributeError from
data.get - only JSON decode errors are caught - so the whole record of
that document becomes an error record, although the content region, its
headings and its links are all extractable. -/
theorem c10_nonobject_structured_data :
    find_author docLdArray = .error (.attributeError "object has no attribute get") ∧
    analyzeUrl "seo" (fun _ => .ok docLdArray) "http://e.com/a" =
      .err "e.com" "http://e.com/a" "object has no attribute get" ∧
    extract_bodyAnc docLdArray = some (["html", "[document]"], ldBody) ∧
    count_sections ldBody = 1 ∧
    (extract_links ["html", "[document]"] ldBody).length = 1 :=
  ⟨rfl, rfl, rfl, rfl, rfl⟩

/-- C4 counterexample: a document with no main, article, role="main" or
body element (as html.parser yields for a bare div fragment) makes
extract_body return None - refuting the claim that the locator never
returns null; downstream, the record of such a document becomes an
error record. -/
theorem c4_counterexample :
    extract_body docNoBody = none ∧
    analyzeUrl "seo" (fun _ => .ok docNoBody) "http://e.com/b" =
      .err "e.com" "http://e.com/b" "NoneType object has no attribute find_all" :=
  ⟨rfl, rfl⟩

/-- C4 amended: extract_body tries main, article, role="main" and the
body element in that order and returns the first hit, but the last
resort is soup.find("body"), not the document root: when no candidate
of the chain exists the locator returns None. -/
theorem c4_content_locator_chain (doc : Node) :
    (∀ m, bsFind isMainTag doc = some m → extract_body doc = some m) ∧
    (bsFind isMainTag doc = none →
      ∀ a, bsFind isArticleTag doc = some a → extract_body doc = some a) ∧
    (bsFind isMainTag doc = none → bsFind isArticleTag doc = none →
      ∀ r, bsFind isRoleMain doc = some r → extract_body doc = some r) ∧
    (bsFind isMainTag doc = none → bsFind isArticleTag doc = none →
      bsFind isRoleMain doc = none → extract_body doc = bsFind isBodyTag doc) := by
  refine ⟨?_, ?_, ?_, ?_⟩
  · intro m h
    rcases Option.map_eq_some'.mp h with ⟨pr, hpr, hsnd⟩
    unfold extract_body extract_bodyAnc
    rw [hpr]
    simp [hsnd]
  · intro hmain a h
    have hm0 : bsFindAnc isMainTag [] doc = none := Option.map_eq_none'.mp hmain
    rcases Option.map_eq_some'.mp h with ⟨pr, hpr, hsnd⟩
    unfold extract_body extract_bodyAnc
    rw [hm0, hpr]
    simp [hsnd]
  · intro hmain hart r h
    have hm0 : bsFindAnc isMainTag [] doc = none := Option.map_eq_none'.mp hmain
    have ha0 : bsFindAnc isArticleTag [] doc = none := Option.map_eq_none'.mp hart
    rcases Option.map_eq_some'.mp h with ⟨pr, hpr, hsnd⟩
    unfold extract_body extract_bodyAnc
    rw [hm0, ha0, hpr]
    simp [hsnd]
  · intro hmain hart hrole
    have hm0 : bsFindAnc isMainTag [] doc = none := Option.map_eq_none'.mp hmain
    have ha0 : bsFindAnc isArticleTag [] doc = none := Option.map_eq_none'.mp hart
    have hr0 : bsFindAnc isRoleMain [] doc = none := Option.map_eq_none'.mp hrole
    unfold extract_body extract_bodyAnc bsFind
    rw [hm0, ha0, hr0]

/-- C4 witness: the amended chain applied to a document holding an
article element but no main element: the second stage fires and
extract_body returns the article node. -/
theorem c4_witness :
    bsFind isMainTag docArticle = none ∧
    bsFind isArticleTag docArticle = some artNode ∧
    extract_body docArticle = some artNode :=
  ⟨rfl, rfl, (c4_content_locator_chain docArticle).2.1 rfl artNode rfl⟩

/-- C8 counterexample: a document whose structured-data author object
carries a JSON-null name field, next to an author-rel anchor: the
structured-data stage executes return author[name] with a null value,
so find_author returns null (Python None, i.e. absent) even though the
third stage would find an anchor - refuting the claim that absent is
returned only when all three stages find nothing. -/
theorem c8_counterexample :
    find_author docNullName = .ok .null ∧
    metaAuthor docNullName = none ∧
    ldAuthorLoop (ldScripts docNullName) = .ok (some .null) ∧
    (relAuthorAnchor docNullName).isSome = true :=
  ⟨rfl, rfl, rfl, rfl⟩

/-- C8 amended: the Author Resolver returns the metadata author whenever
the metadata stage finds a non-empty content attribute, regardless of
any structured-data author (the later stages are not even consulted);
and it returns absent (None) in exactly two situations: the
structured-data stage returned an author name that is JSON null (in
which case the anchor stage is never consulted), or all three stages -
metadata, structured data, author-rel anchor - found nothing. -/
theorem c8_author_priority (doc : Node) :
    (∀ c, metaAuthor doc = some c → find_author doc = .ok (.str c)) ∧
    (find_author doc = .ok .null →
      metaAuthor doc = none ∧
      (ldAuthorLoop (ldScripts doc) = .ok (some .null) ∨
        (ldAuthorLoop (ldScripts doc) = .ok none ∧ relAuthorAnchor doc = none))) := by
  constructor
  · intro c h
    unfold find_author
    rw [h]
  · intro h
    unfold find_author at h
    cases hm : metaAuthor doc with
    | some c => rw [hm] at h; simp at h
    | none =>
        rw [hm] at h
        cases hl : ldAuthorLoop (ldScripts doc) with
        | error e => rw [hl] at h; simp at h
        | ok oj =>
            rw [hl] at h
            cases oj with
            | some j =>
                simp only [] at h
                simp at h
                refine ⟨rfl, Or.inl ?_⟩
                rw [h]
            | none =>
                cases hr : relAuthorAnchor doc with
                | some a => rw [hr] at h; simp at h
                | none => exact ⟨rfl, Or.inr ⟨rfl, rfl⟩⟩

/-- C8 witness: on a page carrying both a metadata author (Alice) and a
conflicting structured-data author (Bob), the structured-data stage
alone would yield Bob, but find_author returns Alice. -/
theorem c8_witness :
    metaAuthor docMetaConflict = some "Alice" ∧
    ldAuthorLoop (ldScripts docMetaConflict) = .ok (some (.str "Bob")) ∧
    find_author docMetaConflict = .ok (.str "Alice") :=
  ⟨rfl, rfl, (c8_author_priority docMetaConflict).1 "Alice" rfl⟩

/-- C5 counterexample: for the URL http://app.www.example.com/x the host
is app.www.example.com, which has no leading "www." prefix, yet the
record domain is app.example.com - str.replace removed an interior
occurrence - refuting the claim that only a leading prefix is stripped. -/
theorem c5_counterexample :
    (analyzeUrl "seo" fetchSimple "http://app.www.example.com/x").domain =
      "app.example.com" ∧
    urlNetloc "http://app.www.example.com/x" = "app.www.example.com" ∧
    specLeadingWwwStripped "app.www.example.com" = "app.www.example.com" ∧
    "app.example.com" ≠ "app.www.example.com" :=
  ⟨rfl, rfl, rfl, by decide⟩

/-- C5 amended: every record's domain is the URL host with every
occurrence of the substring "www." removed (str.replace replaces all
occurrences, not only a leading prefix; the two agree when "www." occurs
at most as a leading prefix). -/
theorem c5_domain_all_www_removed (urls : List String) (kw : String)
    (fetch : String → Except String Node) (w : Weights)
    (out : List (RowRecord × Option ScoreVal))
    (h : pyMain urls kw fetch w = some (.ok out)) :
    ∀ p ∈ out, p.1.domain = pyReplace (urlNetloc p.1.url) "www." "" := by
  intro p hp
  have hmem : p.1 ∈ urls.map (analyzeUrl kw fetch) := by
    unfold pyMain at h
    split at h
    · exact Option.noConfusion h
    · have hdo := Option.some.inj h
      cases hd : dropnaSubset (urls.map (analyzeUrl kw fetch)) with
      | error e =>
          rw [show (do
                let clean ← dropnaSubset (urls.map (analyzeUrl kw fetch))
                if clean.isEmpty then
                  return (urls.map (analyzeUrl kw fetch)).map fun r => (r, none)
                else
                  return mergeScores (urls.map (analyzeUrl kw fetch))
                    (scoreStep (normWeights w) (normStep clean)) :
              Except PyErr (List (RowRecord × Option ScoreVal))) =
              Except.bind (dropnaSubset (urls.map (analyzeUrl kw fetch))) _ from rfl] at hdo
          rw [hd] at hdo
          exact Except.noConfusion hdo
      | ok clean =>
          rw [show (do
                let clean ← dropnaSubset (urls.map (analyzeUrl kw fetch))
                if clean.isEmpty then
                  return (urls.map (analyzeUrl kw fetch)).map fun r => (r, none)
                else
                  return mergeScores (urls.map (analyzeUrl kw fetch))
                    (scoreStep (normWeights w) (normStep clean)) :
              Except PyErr (List (RowRecord × Option ScoreVal))) =
              Except.bind (dropnaSubset (urls.map (analyzeUrl kw fetch))) _ from rfl] at hdo
          rw [hd] at hdo
          dsimp only [Except.bind] at hdo
          split at hdo
          · cases hdo
            rcases List.mem_map.mp hp with ⟨r, hr, he⟩
            rw [← he]
            exact hr
          · cases hdo
            exact mem_mergeScores_fst hp
  rcases List.mem_map.mp hmem with ⟨u, _, he⟩
  have hurl : p.1.url = u := by rw [← he]; exact analyzeUrl_url kw fetch u
  have hdom : p.1.domain = recordDomain u := by rw [← he]; exact analyzeUrl_domain kw fetch u
  rw [hdom, hurl]
  rfl

/-- The displayed frame of the one-URL run used by the C5 witness. -/
def c5OutW : List (RowRecord × Option ScoreVal) :=
  mergeScores (["http://www.example.com/page.html"].map (analyzeUrl "seo" fetchSimple))
    (scoreStep (normWeights wDefault)
      (normStep (successes
        (["http://www.example.com/page.html"].map (analyzeUrl "seo" fetchSimple)))))

/-- C5 witness: the amended statement applied to a one-URL run whose
host is www.example.com: every record domain is the host with all
"www." occurrences removed, here example.com. -/
theorem c5_witness :
    pyMain ["http://www.example.com/page.html"] "seo" fetchSimple wDefault =
      some (.ok c5OutW) ∧
    (∀ p ∈ c5OutW, p.1.domain = pyReplace (urlNetloc p.1.url) "www." "") ∧
    (analyzeUrl "seo" fetchSimple "http://www.example.com/page.html").domain =
      "example.com" := by
  refine ⟨by rfl, ?_, by rfl⟩
  exact c5_domain_all_www_removed ["http://www.example.com/page.html"] "seo" fetchSimple
    wDefault c5OutW (by rfl)

/-- C7 counterexample: a document whose content region contains no
paragraph element, yet whose record is an error record, because another
stage (the Author Resolver, on a structured-data array) raises - the
claim that every such document yields a success record is false. -/
theorem c7_counterexample :
    extract_bodyAnc docLdArray = some (["html", "[document]"], ldBody) ∧
    bsFindAll (isTag "p") ldBody = [] ∧
    RowRecord.isOk (analyzeUrl "seo" (fun _ => .ok docLdArray) "http://e.com/c") = false :=
  ⟨rfl, rfl, rfl⟩

/-- C7 amended: when the located content region contains no paragraph
element, extraction yields an empty paragraph list and word count 0, and
the emptiness itself causes no error: whenever the record is a success
record its wordCount is 0. (A failure of a later stage - relevancy on an
empty vocabulary, or the Author Resolver on a non-object structured-data
block - can still turn the record into an error record.) -/
theorem c7_empty_region (kw : String) (fetch : String → Except String Node)
    (url : String) (doc : Node) (pr : List String × Node)
    (hf : fetch url = .ok doc)
    (hb : extract_bodyAnc doc = some pr)
    (hp : bsFindAll (isTag "p") pr.2 = []) :
    get_paragraph_texts pr.2 = [] ∧
    pyWordCount (sjoin " " (get_paragraph_texts pr.2)) = 0 ∧
    (∀ r, analyzeUrl kw fetch url = .ok r → r.wordCount = 0) := by
  have hpar : get_paragraph_texts pr.2 = [] := by
    unfold get_paragraph_texts
    rw [hp]
    rfl
  have hwc : pyWordCount (sjoin " " (get_paragraph_texts pr.2)) = 0 := by
    rw [hpar]
    rfl
  refine ⟨hpar, hwc, ?_⟩
  intro r hr
  unfold analyzeUrl at hr
  cases ht : analyzeTry kw fetch url with
  | error e => rw [ht] at hr; cases hr
  | ok t =>
      rw [ht] at hr
      cases hr
      unfold analyzeTry at ht
      rw [hf] at ht
      dsimp only at ht
      rw [hb] at ht
      dsimp only at ht
      repeat' split at ht
      all_goals first
        | exact Except.noConfusion ht
        | (cases ht; exact hwc)

/-- C7 witness: the amended statement applied to a paragraph-free
document on which every other stage succeeds: the paragraph list is
empty, the word count is 0 and the success record carries wordCount 0. -/
theorem c7_witness :
    get_paragraph_texts ldBody = [] ∧
    pyWordCount (sjoin " " (get_paragraph_texts ldBody)) = 0 ∧
    (∀ r, analyzeUrl "seo" (fun _ => .ok docNoParagraphs) "http://e.com/d" = .ok r →
      r.wordCount = 0) ∧
    RowRecord.isOk (analyzeUrl "seo" (fun _ => .ok docNoParagraphs) "http://e.com/d") =
      true := by
  have h := c7_empty_region "seo" (fun _ => .ok docNoParagraphs) "http://e.com/d"
    docNoParagraphs (["html", "[document]"], ldBody) rfl rfl rfl
  exact ⟨h.1, h.2.1, h.2.2, rfl⟩

/-- C9: extract_links returns a duplicate-free collection, and a string
belongs to it exactly when some anchor with an href below the region has
no navigation or footer element among its ancestors (in the whole
document) and its stripped href is the string, does not begin with a
hash, and contains a dot. -/
theorem c9_link_extractor (anc : List String) (body : Node) :
    (extract_links anc body).Nodup ∧
    ∀ h : String, (h ∈ extract_links anc body ↔
      ∃ pr ∈ anchorsAnc anc body,
        ("nav" ∉ pr.1 ∧ "footer" ∉ pr.1) ∧
        ∃ v, attrGet pr.2 "href" = some v ∧ h = pyStrip v ∧
          pyStartsWith (pyStrip v) "#" = false ∧
          (pyStrip v).data.contains '.' = true) := by
  constructor
  · exact List.nodup_dedup _
  · intro h
    unfold extract_links
    rw [List.mem_dedup, List.mem_filterMap]
    constructor
    · rintro ⟨pr, hpr, hf⟩
      refine ⟨pr, hpr, ?_⟩
      dsimp only at hf
      by_cases h1 : (pr.1.contains "nav" || pr.1.contains "footer") = true
      · rw [if_pos h1] at hf; cases hf
      · rw [if_neg h1] at hf
        have hnav : "nav" ∉ pr.1 := by
          intro hm
          exact h1 (by simp [hm])
        have hfoot : "footer" ∉ pr.1 := by
          intro hm
          exact h1 (by simp [hm])
        refine ⟨⟨hnav, hfoot⟩, ?_⟩
        cases hv : attrGet pr.2 "href" with
        | none => rw [hv] at hf; cases hf
        | some v =>
            rw [hv] at hf
            dsimp only at hf
            by_cases h2 : pyStartsWith (pyStrip v) "#" = true
            · rw [if_pos h2] at hf; cases hf
            · rw [if_neg h2] at hf
              by_cases h3 : (pyStrip v).data.contains '.' = true
              · rw [if_pos h3] at hf
                exact ⟨v, rfl, (Option.some.inj hf).symm,
                  Bool.eq_false_iff.mpr h2, h3⟩
              · rw [if_neg h3] at hf; cases hf
    · rintro ⟨pr, hpr, ⟨hnav, hfoot⟩, v, hv, rfl, hsh, hdot⟩
      refine ⟨pr, hpr, ?_⟩
      dsimp only
      rw [if_neg (by simp [hnav, hfoot]), hv]
      dsimp only
      rw [if_neg (by simp [hsh]), if_pos hdot]

/-- C9 witness: the characterization applied to a region holding a
navigation-nested anchor with a dotted href, a fragment href, a dotless
relative href and a regular external link: only the external link
survives, and its membership follows from the theorem. -/
theorem c9_witness :
    extract_links ["html", "[document]"] linksBody = ["https://example.com/a.html"] ∧
    "https://example.com/a.html" ∈ extract_links ["html", "[document]"] linksBody := by
  refine ⟨by rfl, ?_⟩
  apply ((c9_link_extractor ["html", "[document]"] linksBody).2 "https://example.com/a.html").mpr
  refine ⟨(["body", "html", "[document]"], [("href", "https://example.com/a.html")]),
    by decide, ⟨by decide, by decide⟩, "https://example.com/a.html", by rfl, by rfl,
    by rfl, by rfl⟩

theorem scoreStep_filter_length (w : Weights) (S : List SuccRow) (u : String) :
    ((scoreStep w (normStep S)).filter (fun p => p.1 == u)).length =
      (S.filter (fun t => t.url == u)).length := by
  unfold scoreStep normStep
  dsimp only
  rw [List.filter_map, List.filter_map]
  rw [List.length_map, List.length_map]
  rfl

/-- C3 counterexample: a run over the same successful URL given twice
produces four records, not two - the URL-keyed left merge pairs each of
the two frame rows with each of the two score rows - refuting the claim
that every input sequence yields exactly one record per input URL. -/
theorem c3_counterexample :
    (pyMain ["http://a.com/x.html", "http://a.com/x.html"] "seo" fetchSimple
        wDefault).map (fun r => r.map List.length) = some (.ok 4) ∧
    (pyMain ["http://a.com/x.html", "http://a.com/x.html"] "seo" fetchSimple
        wDefault).map (fun r => r.map List.length) ≠ some (.ok 2) := by
  have he : (pyMain ["http://a.com/x.html", "http://a.com/x.html"] "seo" fetchSimple
      wDefault).map (fun r => r.map List.length) = some (.ok 4) := by rfl
  refine ⟨he, ?_⟩
  intro hc
  rw [he] at hc
  simp at hc

/-- C3 amended: when the input URLs are non-empty and pairwise distinct,
the keyword is non-empty, and at least one URL is processed successfully,
the run returns a frame with exactly one record per input URL in input
order (record i is the analysis of URL i; failed URLs get error records
and the loop continues), and no error record carries an overall score.
Duplicate successful URLs would be multiplied by the merge, and an
all-failed batch raises (C1). -/
theorem c3_batch_failure_isolation (urls : List String) (kw : String)
    (fetch : String → Except String Node) (w : Weights)
    (hne : urls ≠ []) (hkw : kw ≠ "") (hnd : urls.Nodup)
    (hsucc : ∃ u ∈ urls, (analyzeUrl kw fetch u).isOk = true) :
    ∃ out, pyMain urls kw fetch w = some (.ok out) ∧
      out.map Prod.fst = urls.map (analyzeUrl kw fetch) ∧
      ∀ p ∈ out, p.1.isOk = false → p.2 = none := by
  have hA : ∀ v s, analyzeUrl kw fetch v = .ok s → s.url = v :=
    fun v s h => analyzeUrl_ok_url h
  rcases hsucc with ⟨u0, hu0, hok0⟩
  have hokmem : ∃ r ∈ urls.map (analyzeUrl kw fetch), r.isOk = true :=
    ⟨analyzeUrl kw fetch u0, List.mem_map.mpr ⟨u0, hu0, rfl⟩, hok0⟩
  have hdrop := dropna_ok hokmem
  have hs0ex : ∃ s0, analyzeUrl kw fetch u0 = .ok s0 := by
    cases h0 : analyzeUrl kw fetch u0 with
    | ok s0 => exact ⟨s0, rfl⟩
    | err d u m => rw [h0] at hok0; simp [RowRecord.isOk] at hok0
  rcases hs0ex with ⟨s0, hs0⟩
  have hs0mem : s0 ∈ successes (urls.map (analyzeUrl kw fetch)) :=
    mem_successes.mpr (List.mem_map.mpr ⟨u0, hu0, hs0⟩)
  have hclean : (successes (urls.map (analyzeUrl kw fetch))).isEmpty = false := by
    cases hc : successes (urls.map (analyzeUrl kw fetch)) with
    | nil => rw [hc] at hs0mem; cases hs0mem
    | cons a l => rfl
  refine ⟨mergeScores (urls.map (analyzeUrl kw fetch))
    (scoreStep (normWeights w) (normStep (successes (urls.map (analyzeUrl kw fetch))))),
    ?_, ?_, ?_⟩
  · unfold pyMain
    rw [if_neg]
    · rw [show (do
            let clean ← dropnaSubset (urls.map (analyzeUrl kw fetch))
            if clean.isEmpty then
              return (urls.map (analyzeUrl kw fetch)).map fun r => (r, none)
            else
              return mergeScores (urls.map (analyzeUrl kw fetch))
                (scoreStep (normWeights w) (normStep clean)) :
          Except PyErr (List (RowRecord × Option ScoreVal))) =
          Except.bind (dropnaSubset (urls.map (analyzeUrl kw fetch))) _ from rfl]
      rw [hdrop]
      dsimp only [Except.bind]
      rw [if_neg (by simp [hclean])]
      rfl
    · intro hcond
      rcases Bool.or_eq_true_iff.mp hcond with hc | hc
      · exact hne (List.isEmpty_iff.mp hc)
      · exact hkw (by simpa using hc)
  · apply mergeScores_map_fst
    intro r hr
    rcases List.mem_map.mp hr with ⟨u, hu, he⟩
    subst he
    rw [analyzeUrl_url kw fetch u]
    cases hAu : analyzeUrl kw fetch u with
    | err d url m =>
        left
        apply List.length_eq_zero.mp
        rw [scoreStep_filter_length]
        rw [filter_successes_of_err hA (by rw [hAu]; rfl)]
        rfl
    | ok s =>
        right
        apply List.length_eq_one.mp
        rw [scoreStep_filter_length]
        rw [filter_successes_of_ok hA hnd hu hAu]
        rfl
  · intro p hp hperr
    refine mergeScores_err_none ?_ hp hperr
    intro r hr hrerr
    rcases List.mem_map.mp hr with ⟨u, hu, he⟩
    subst he
    rw [analyzeUrl_url kw fetch u]
    apply List.length_eq_zero.mp
    rw [scoreStep_filter_length]
    rw [filter_successes_of_err hA hrerr]
    rfl

/-- C3 witness: a batch of three distinct URLs where the second fetch
fails: the theorem applies, so the displayed frame has one record per
URL in order and the error records carry no score; concretely, record 2
is the error record of the failed URL. -/
theorem c3_witness :
    (∃ out, pyMain ["http://a.com/1.html", "http://b.com/2.html", "http://c.com/3.html"]
        "seo" fetchSecondFails wDefault = some (.ok out) ∧
      out.map Prod.fst = ["http://a.com/1.html", "http://b.com/2.html",
        "http://c.com/3.html"].map (analyzeUrl "seo" fetchSecondFails) ∧
      ∀ p ∈ out, p.1.isOk = false → p.2 = none) ∧
    analyzeUrl "seo" fetchSecondFails "http://b.com/2.html" =
      .err "b.com" "http://b.com/2.html" "HTTP 500" := by
  constructor
  · apply c3_batch_failure_isolation
    · decide
    · decide
    · decide
    · exact ⟨"http://a.com/1.html", by decide, by rfl⟩
  · rfl

end PageAnalysis
